import Mathlib

/-!
Shallow embedding of the chatting-embedding service
(`src/app.py`, `src/elastic_client.py`, `src/embedder.py`).

Conventions used throughout:
* Python strings are Lean `String`s; per-character processing works on
  `String.data : List Char`.
* Python floats (similarity scores, thresholds, vector components) are
  modelled as `ℚ`.
* Elasticsearch is modelled as an association list from document id to
  document; `es.index` (upsert by id) replaces any document stored at the
  same id.
* Library calls whose outcome the code only branches on (ISO-8601 parsing,
  the embedding model's encoder, the current wall-clock time) are passed in
  as explicit parameters, so every branch of the source stays visible.
-/

/-! ### Python character classes

`isWS` models the character class matched by Python's `str.strip()` and the
regex `\s` (ASCII whitespace ` \t\n\r\x0b\x0c` plus the common Unicode
spaces NBSP U+00A0 and ideographic space U+3000), via code points:
32 ' ', 9 '\t', 10 '\n', 13 '\r', 11 '\x0b', 12 '\x0c', 160, 12288. -/
def isWS (c : Char) : Bool :=
  c.toNat == 32 || c.toNat == 9 || c.toNat == 10 || c.toNat == 13 ||
  c.toNat == 11 || c.toNat == 12 || c.toNat == 160 || c.toNat == 12288

/-- The sentence-terminal punctuation class of `normalize_phrase`'s regex
`[?!.。！？…]`: code points 63 '?', 33 '!', 46 '.', 12290 '。', 65281 '！',
65311 '？', 8230 '…'. -/
def isTermPunct (c : Char) : Bool :=
  c.toNat == 63 || c.toNat == 33 || c.toNat == 46 || c.toNat == 12290 ||
  c.toNat == 65281 || c.toNat == 65311 || c.toNat == 8230

/-- Modelled: Python `str.casefold()` acts character-wise; we model its
action on the ASCII range (`'A'..'Z'` ↦ `'a'..'z'`, code points 65–90 ↦
97–122) and as the identity elsewhere.  Like the full Unicode fold, this
map is idempotent and never produces a whitespace or terminal-punctuation
character, which is all the development relies on. -/
def foldChar (c : Char) : Char :=
  if 65 ≤ c.toNat ∧ c.toNat ≤ 90 then Char.ofNat (c.toNat + 32) else c

/-! ### Python string helpers -/

/-- Python `str.strip()` on a character list: drop leading and trailing whitespace
(`List.rdropWhile p l` is `(l.reverse.dropWhile p).reverse`). -/
def pyStripList (l : List Char) : List Char :=
  (l.dropWhile isWS).rdropWhile isWS

/-- Python `s.strip()`. -/
def pyStrip (s : String) : String := String.mk (pyStripList s.data)

/-- Python `re.sub(r"\s+", " ", s)` on a character list: replace every maximal run
of whitespace by a single space. -/
def collapseWS : List Char → List Char
  | [] => []
  | [c] => [if isWS c then ' ' else c]
  | c :: d :: rest =>
    if isWS c && isWS d then collapseWS (d :: rest)
    else (if isWS c then ' ' else c) :: collapseWS (d :: rest)

/-- Python `re.sub(r"[?!.。！？…]+$", "", s)` on a character list: remove the
maximal trailing run of terminal punctuation.  (The regex-`$` subtlety of
also matching before a final newline is unreachable here: `normalize_phrase`
applies this after whitespace collapsing, which leaves no newline.) -/
def rstripPunct (l : List Char) : List Char :=
  l.rdropWhile isTermPunct

/-- Python `s.casefold()` on a character list (see `foldChar`). -/
def caseFoldList (l : List Char) : List Char := l.map foldChar

/-- The body of `elastic_client.normalize_phrase` on a character list:
strip, collapse whitespace runs, strip trailing terminal punctuation,
casefold — in that order. -/
def normList (l : List Char) : List Char :=
  caseFoldList (rstripPunct (collapseWS (pyStripList l)))

/-- The normalizer `elastic_client.normalize_phrase`:
```
s = (s or "").strip()
s = re.sub(r"\s+", " ", s)
s = re.sub(r"[?!.。！？…]+$", "", s)
s = s.casefold()
```
-/
def normalize_phrase (s : String) : String := String.mk (normList s.data)

/-! ### UTF-8 and SHA-1

`add_seeds` and `add_default_seeds` compute a document identity via
`hashlib.sha1(f"{label}|{normalized}".encode("utf-8")).hexdigest()`.
We implement UTF-8 encoding and SHA-1 (FIPS 180-1) over `Nat`, with 32-bit
words kept in range via `% 2^32`. -/

/-- UTF-8 encoding of one character (Python `str.encode("utf-8")`). -/
def utf8Char (c : Char) : List Nat :=
  let n := c.toNat
  if n < 128 then [n]
  else if n < 2048 then [192 ||| (n >>> 6), 128 ||| (n &&& 63)]
  else if n < 65536 then
    [224 ||| (n >>> 12), 128 ||| ((n >>> 6) &&& 63), 128 ||| (n &&& 63)]
  else
    [240 ||| (n >>> 18), 128 ||| ((n >>> 12) &&& 63),
     128 ||| ((n >>> 6) &&& 63), 128 ||| (n &&& 63)]

/-- UTF-8 bytes of a string. -/
def utf8Bytes (s : String) : List Nat :=
  s.data.foldr (fun c acc => utf8Char c ++ acc) []

/-- Truncate to a 32-bit word. -/
def w32 (n : Nat) : Nat := n % 4294967296

/-- Left rotation of a 32-bit word by `b`. -/
def rotl (b n : Nat) : Nat := w32 ((n <<< b) ||| (n >>> (32 - b)))

/-- The SHA-1 round function for round `t`. -/
def sha1F (t b c d : Nat) : Nat :=
  if t < 20 then (b &&& c) ||| ((4294967295 ^^^ b) &&& d)
  else if t < 40 then b ^^^ c ^^^ d
  else if t < 60 then (b &&& c) ||| (b &&& d) ||| (c &&& d)
  else b ^^^ c ^^^ d

/-- The SHA-1 round constant for round `t`. -/
def sha1K (t : Nat) : Nat :=
  if t < 20 then 1518500249 else if t < 40 then 1859775393
  else if t < 60 then 2400959708 else 3395469782

/-- SHA-1 message padding: `0x80`, zeros to 56 mod 64, 64-bit big-endian
bit length. -/
def sha1Pad (msg : List Nat) : List Nat :=
  let bitLen := 8 * msg.length
  let padZeros := (119 - msg.length % 64) % 64
  msg ++ [128] ++ List.replicate padZeros 0 ++
    (List.range 8).map (fun i => (bitLen >>> (56 - 8 * i)) &&& 255)

/-- Big-endian bytes to 32-bit words. -/
def bytesToWords : List Nat → List Nat
  | a :: b :: c :: d :: rest =>
    (a <<< 24 ||| b <<< 16 ||| c <<< 8 ||| d) :: bytesToWords rest
  | _ => []

/-- Extend the 16 chunk words to the 80-word message schedule. -/
def sha1Extend (ws : List Nat) : List Nat :=
  (List.range 64).foldl
    (fun ws _ =>
      let n := ws.length
      ws ++ [rotl 1 (ws.getD (n - 3) 0 ^^^ ws.getD (n - 8) 0 ^^^
                     ws.getD (n - 14) 0 ^^^ ws.getD (n - 16) 0)])
    ws

/-- One SHA-1 round on the five-word state. -/
def sha1Round (st : Nat × Nat × Nat × Nat × Nat) (tw : Nat × Nat) :
    Nat × Nat × Nat × Nat × Nat :=
  let (a, b, c, d, e) := st
  let (t, w) := tw
  (w32 (rotl 5 a + sha1F t b c d + e + sha1K t + w), a, rotl 30 b, c, d)

/-- Process one 64-byte chunk. -/
def sha1Chunk (h : Nat × Nat × Nat × Nat × Nat) (chunk : List Nat) :
    Nat × Nat × Nat × Nat × Nat :=
  let ws := sha1Extend (bytesToWords chunk)
  let (a, b, c, d, e) := ((List.range 80).zip ws).foldl sha1Round h
  let (h0, h1, h2, h3, h4) := h
  (w32 (h0 + a), w32 (h1 + b), w32 (h2 + c), w32 (h3 + d), w32 (h4 + e))

/-- Split into 64-byte chunks (fuelled by the list length to keep the
recursion structural). -/
def toChunksAux : Nat → List Nat → List (List Nat)
  | 0, _ => []
  | _ + 1, [] => []
  | fuel + 1, l => l.take 64 :: toChunksAux fuel (l.drop 64)

/-- Split a byte list into 64-byte chunks. -/
def toChunks (l : List Nat) : List (List Nat) := toChunksAux l.length l

/-- Lower-case hex digit of a nibble. -/
def hexDigit (n : Nat) : Char := Char.ofNat (if n < 10 then 48 + n else 87 + n)

/-- Eight lower-case hex digits of a 32-bit word, big-endian. -/
def toHex8 (n : Nat) : List Char :=
  (List.range 8).map (fun i => hexDigit ((n >>> (28 - 4 * i)) &&& 15))

/-- Python `hashlib.sha1(bytes).hexdigest()`. -/
def sha1Hex (msg : List Nat) : String :=
  let initState : Nat × Nat × Nat × Nat × Nat :=
    (1732584193, 4023233417, 2562383102, 271733878, 3285377520)
  let (h0, h1, h2, h3, h4) := (toChunks (sha1Pad msg)).foldl sha1Chunk initState
  String.mk (toHex8 h0 ++ toHex8 h1 ++ toHex8 h2 ++ toHex8 h3 ++ toHex8 h4)

/-! ### Embedding Provider (`src/embedder.py`)

`get_embedding` formats the input as `f"{prefix}: {text}"` (where the
role marker is `"query"` unless `kind == "passage"`) and feeds it to the
black-box encoder `model.encode(..., normalize_embeddings=True)`.  The
encoder is external; what the repository controls — and what the framing
claims are about — is the formatted text handed to it, which we embed as
`get_embedding_input`.  The `kind` parameter defaults to `"query"`. -/
def get_embedding_input (text : String) (kind : String := "query") : String :=
  let marker := if kind != "passage" then "query" else "passage"
  marker ++ ": " ++ text

/-- The text `add_seeds` (`src/app.py`) hands to the encoder for a seed
phrase `p`: it calls `get_embedding(p)` with no `kind` argument. -/
def add_seeds_embed_input (p : String) : String := get_embedding_input p

/-- The text `should_block` (`src/app.py`) hands to the encoder for the
live input `text`: it calls `get_embedding(text)` with no `kind` argument. -/
def should_block_embed_input (text : String) : String := get_embedding_input text

/-! ### Seed Store (`src/app.py` `add_seeds`, `src/elastic_client.py`
`add_default_seeds`)

The Elasticsearch seed index is an association list from document id to
seed document; `es.index(index, id, document)` overwrites any document at
the same id. -/

/-- A document of the seed index (`doc` built in `add_seeds` /
`add_default_seeds`). -/
structure SeedDoc where
  label : String
  phrase : String
  phrase_normalized : String
  created_at : String
  embedding : List ℚ
deriving DecidableEq

/-- The seed index: id ↦ document. -/
def SeedStore := List (String × SeedDoc)

instance : DecidableEq SeedStore := inferInstanceAs (DecidableEq (List (String × SeedDoc)))

/-- Elasticsearch `es.index(index=..., id=es_id, document=doc)`: upsert by id — any
document previously stored at `id` is replaced. -/
def esIndex (store : SeedStore) (id : String) (doc : SeedDoc) : SeedStore :=
  store.filter (fun kv => kv.1 ≠ id) ++ [(id, doc)]

/-- Elasticsearch `es.exists(index=..., id=...)`. -/
def esExists (store : SeedStore) (id : String) : Bool :=
  store.any (fun kv => kv.1 == id)

/-- Look up the document stored at an id. -/
def esGet (store : SeedStore) (id : String) : Option SeedDoc :=
  List.lookup id store

/-- The seed document identity:
`hashlib.sha1(f"{label}|{normalized}".encode("utf-8")).hexdigest()` with
`normalized = normalize_phrase(p)` (same expression in `add_seeds` and
`add_default_seeds`). -/
def seedDocId (label p : String) : String :=
  sha1Hex (utf8Bytes (label ++ "|" ++ normalize_phrase p))

/-- The seed document built for one phrase (`add_seeds` loop body /
`add_default_seeds` loop body): `now` is `datetime.now(timezone.utc).isoformat()`
and `embOf` the deterministic encoder. -/
def mkSeedDoc (label p now : String) (embOf : String → List ℚ) : SeedDoc :=
  { label := label, phrase := p, phrase_normalized := normalize_phrase p,
    created_at := now, embedding := embOf p }

/-- One valid-phrase iteration of the `add_seeds` loop: compute the
identity and upsert the document there. -/
def upsertSeedPhrase (store : SeedStore) (label p now : String)
    (embOf : String → List ℚ) : SeedStore :=
  esIndex store (seedDocId label p) (mkSeedDoc label p now embOf)

/-- A JSON entry of the `phrases` array: a string or some other value. -/
inductive PVal where
  | pstr (s : String)
  | pother
deriving DecidableEq

/-- The `add_seeds` skip test: `if not isinstance(p, str) or not p.strip():
continue` — an entry survives iff it is a string whose strip is non-empty. -/
def isValidPhrase : PVal → Bool
  | .pstr s => pyStrip s != ""
  | .pother => false

/-- One per-phrase outcome appended to `results` in `add_seeds`:
`_id` and `result` echo the `es.index` response (`"created"` for a fresh
id, `"updated"` for an overwrite), with the phrase and label. -/
structure SeedResult where
  id : String
  result : String
  phrase : String
  label : String
deriving DecidableEq

/-- One iteration of the `add_seeds` loop over `phrases`: skip invalid
entries silently; embed, upsert at the identity, and report each valid
phrase. -/
def addSeedsStep (label now : String) (embOf : String → List ℚ)
    (acc : SeedStore × List SeedResult) (p : PVal) : SeedStore × List SeedResult :=
  match p with
  | .pstr s =>
    if pyStrip s = "" then acc
    else
      let id := seedDocId label s
      let kind := if esExists acc.1 id then "updated" else "created"
      (upsertSeedPhrase acc.1 label s now embOf,
       acc.2 ++ [{ id := id, result := kind, phrase := s, label := label }])
  | .pother => acc

/-- The `add_seeds` loop over `phrases`, threading the store and the
`results` list. -/
def addSeedsLoop (label : String) (now : String) (embOf : String → List ℚ)
    (phrases : List PVal) (store : SeedStore) : SeedStore × List SeedResult :=
  phrases.foldl (addSeedsStep label now embOf) (store, [])

/-- The `count` field of the `add_seeds` response: `len(results)`. -/
def addSeedsCount (label now : String) (embOf : String → List ℚ)
    (phrases : List PVal) (store : SeedStore) : Nat :=
  (addSeedsLoop label now embOf phrases store).2.length

/-- One phrase of the `add_default_seeds` bootstrap
(`src/elastic_client.py`): skip blank/non-string phrases; compute the
identity key; if a document already exists at that key the phrase is
skipped (`if es.exists(...): continue`), otherwise the document is
indexed. -/
def bootSeedPhrase (label now : String) (embOf : String → List ℚ)
    (st : SeedStore) (p : PVal) : SeedStore :=
  match p with
  | .pstr s =>
    if pyStrip s = "" then st
    else
      let id := seedDocId label s
      if esExists st id then st
      else esIndex st id (mkSeedDoc label s now embOf)
  | .pother => st

/-- The bootstrap `add_default_seeds` (`src/elastic_client.py`): for every `(label,
phrases)` pair of the bootstrap data (loaded from `default_seeds.json`,
supplied here as a parameter), run `bootSeedPhrase` over the phrases. -/
def add_default_seeds (store : SeedStore) (seeds : List (String × List PVal))
    (now : String) (embOf : String → List ℚ) : SeedStore :=
  seeds.foldl (fun st ld => ld.2.foldl (bootSeedPhrase ld.1 now embOf) st) store

/-! ### Classifier (`src/app.py` `should_block`) -/

/-- A knn hit as `should_block` consumes it: the `_source` label (requested
via `_source=["label", "phrase"]`) and the `_score`, which may be absent. -/
structure Hit where
  label : Option String
  score : Option ℚ
deriving DecidableEq

/-- The outcome of the `es.knn_search` call in `_search_top_hit`: either a
hit list or a raised transport/query exception. -/
inductive SearchOutcome where
  | ok (hits : List Hit)
  | failure
deriving DecidableEq

/-- The helper `_search_top_hit`: the first hit of the response if any, and `None`
both for an empty hit list and for any exception. -/
def searchTopHit : SearchOutcome → Option Hit
  | .failure => none
  | .ok hits => hits.head?

/-- The JSON body `should_block` returns (the with-hit body carries no
`reason` key, modelled as `reason = none`). -/
structure BlockBody where
  block : Bool
  label : Option String
  similarity : Option ℚ
  distance : Option ℚ
  threshold : ℚ
  reason : Option String
deriving DecidableEq

/-- The helper `_format_no_hit`: the fail-open body, HTTP 200. -/
def formatNoHit (threshold : ℚ) : BlockBody × Nat :=
  ({ block := false, label := none, similarity := none, distance := none,
     threshold := threshold, reason := some "no_seed_match" }, 200)

/-- The helper `_format_with_hit`: read the label and score off the top hit;
`similarity` is the score (if present), `distance = 1 - similarity` (if
present), and `block` iff the score is present and `>=` the threshold. -/
def formatWithHit (top : Hit) (threshold : ℚ) : BlockBody × Nat :=
  let sim : Option ℚ := top.score
  let dist : Option ℚ := match sim with | none => none | some s => some (1 - s)
  let block : Bool := match sim with | none => false | some s => decide (s ≥ threshold)
  ({ block := block, label := top.label, similarity := sim, distance := dist,
     threshold := threshold, reason := none }, 200)

/-- A `should_block` response: an error body with HTTP status, or a
classification body with HTTP status. -/
inductive BlockResponse where
  | err (msg : String) (status : Nat)
  | ok (body : BlockBody) (status : Nat)
deriving DecidableEq

/-- The endpoint `should_block` after threshold and filter resolution: validate the
text (`if not text or not isinstance(text, str) or not text.strip()` — the
non-string case is outside this model, which types `text` as a string),
then dispatch on the search outcome.  The threshold is the resolved value
(see `resolveThreshold`); the label filter only shapes the query sent to
the store and hence the `SearchOutcome`. -/
def should_block (text : String) (threshold : ℚ) (search : SearchOutcome) :
    BlockResponse :=
  if text = "" ∨ pyStrip text = "" then .err "text is required" 400
  else
    match searchTopHit search with
    | none => .ok (formatNoHit threshold).1 (formatNoHit threshold).2
    | some top => .ok (formatWithHit top threshold).1 (formatWithHit top threshold).2

/-- Threshold resolution: `float(data.get("threshold", 0.9))` with
`TypeError`/`ValueError` falling back to `0.9`.  Modelled on numeric or
absent JSON values (Python's `float` would additionally parse numeric
strings; no claim exercises that). -/
def resolveThreshold : Option ℚ → ℚ
  | some t => t
  | none => 9 / 10

/-! ### Label filter and the knn query (`should_block` filter resolution,
and the Seed Store side of `es.knn_search`) -/

/-- A JSON value as the filter-resolution code inspects it. -/
inductive JVal where
  | jstr (s : String)
  | jlist (xs : List JVal)
  | jnull
  | jother

/-- The Elasticsearch filter built by `should_block`: a single `term`
clause or a `terms` clause. -/
inductive ESFilter where
  | term (l : String)
  | terms (ls : List String)
deriving DecidableEq

/-- The valid-label test used on entries of `labels`:
`isinstance(l, str) and l.strip()`. -/
def validLabel : JVal → Option String
  | .jstr s => if pyStrip s = "" then none else some s
  | _ => none

/-- Filter resolution in `should_block`:
```
filters = None
if isinstance(data.get("label"), str) and data.get("label").strip():
    filters = [{"term": {"label": data.get("label")}}]
elif isinstance(data.get("labels"), list) and data.get("labels"):
    labels = [l for l in data.get("labels") if isinstance(l, str) and l.strip()]
    if labels:
        filters = [{"terms": {"label": labels}}]
```
-/
def resolveFilters (labelV labelsV : JVal) : Option ESFilter :=
  match labelV with
  | .jstr s =>
    if pyStrip s ≠ "" then some (.term s)
    else resolveFiltersFromLabels labelsV
  | _ => resolveFiltersFromLabels labelsV
where
  /-- The `elif` branch over `labels`. -/
  resolveFiltersFromLabels : JVal → Option ESFilter
  | .jlist xs =>
    if xs.isEmpty then none
    else
      let ls := xs.filterMap validLabel
      if ls.isEmpty then none else some (.terms ls)
  | _ => none

/-- Filter admission on the Seed Store side: a `term` clause is equality
on the `label` keyword field, a `terms` clause is membership. -/
def matchesFilter : Option ESFilter → String → Bool
  | none, _ => true
  | some (.term l), lbl => lbl == l
  | some (.terms ls), lbl => ls.contains lbl

/-- Dot product of two vectors (componentwise, stopping at the shorter). -/
def dotQ : List ℚ → List ℚ → ℚ
  | a :: as, b :: bs => a * b + dotQ as bs
  | _, _ => 0

/-- The `_score` Elasticsearch reports for a `cosine`-similarity
`dense_vector` field: `(1 + cosine(q, d)) / 2`; the embeddings are
unit-normalized, so the cosine is the dot product. -/
def esCosScore (q emb : List ℚ) : ℚ := (1 + dotQ q emb) / 2

/-- Keep the higher-scoring of two seed documents for the query vector `q`
(ties keep the first). -/
def knnPick (q : List ℚ) (b kv2 : String × SeedDoc) : String × SeedDoc :=
  if esCosScore q kv2.2.embedding > esCosScore q b.2.embedding then kv2 else b

/-- The Seed Store side of `es.knn_search(..., k=1, num_candidates=100,
filter=filters)`: among the seeds admitted by the filter, return the hit
with the highest score (`k = 1`; exact search over the admitted subset).
Returns no hit when no seed is admitted. -/
def knnSearchTop1 (store : SeedStore) (q : List ℚ) (f : Option ESFilter) :
    Option Hit :=
  match store.filter (fun kv => matchesFilter f kv.2.label) with
  | [] => none
  | kv :: rest =>
    let best := rest.foldl (knnPick q) kv
    some { label := some best.2.label, score := some (esCosScore q best.2.embedding) }

/-- Whether the `label` field alone resolves a filter:
`isinstance(data.get("label"), str) and data.get("label").strip()`. -/
def singleLabelValid : JVal → Bool
  | .jstr s => pyStrip s != ""
  | _ => false

/-- The valid labels extracted from the `labels` field (empty when the
field is not a list). -/
def multiLabels : JVal → List String
  | .jlist xs => xs.filterMap validLabel
  | _ => []

/-- A concrete two-seed store for the Scenario C theorem: the `labelB`
seed is strictly closer to the query vector `[1]` than the `labelA` seed. -/
def c8ScenarioStore : SeedStore :=
  [("idA", { label := "labelA", phrase := "a", phrase_normalized := "a",
             created_at := "T", embedding := [1] }),
   ("idB", { label := "labelB", phrase := "b", phrase_normalized := "b",
             created_at := "T", embedding := [3] })]

/-! ### Message timestamps (`src/app.py` `embed`) -/

/-- Zero-pad a natural to two digits. -/
def pad2 (n : Nat) : String := if n < 10 then "0" ++ toString n else toString n

/-- Zero-pad a natural to four digits. -/
def pad4 (n : Nat) : String :=
  if n < 10 then "000" ++ toString n
  else if n < 100 then "00" ++ toString n
  else if n < 1000 then "0" ++ toString n
  else toString n

/-- Proleptic-Gregorian civil date from days since 1970-01-01
(the standard days-to-civil algorithm, as `datetime` computes it). -/
def civilFromDays (z0 : Int) : Int × Nat × Nat :=
  let z := z0 + 719468
  let era := Int.ediv (if 0 ≤ z then z else z - 146096) 146097
  let doe := (z - era * 146097).toNat
  let yoe := (doe - doe / 1460 + doe / 36524 - doe / 146096) / 365
  let y : Int := (yoe : Int) + era * 400
  let doy := doe - (365 * yoe + yoe / 4 - yoe / 100)
  let mp := (5 * doy + 2) / 153
  let d := doy - (153 * mp + 2) / 5 + 1
  let m := if mp < 10 then mp + 3 else mp - 9
  (y + (if m ≤ 2 then 1 else 0), m, d)

/-- Python `datetime.fromtimestamp(n, tz=timezone.utc).isoformat()` for a whole
number of epoch seconds: `YYYY-MM-DDTHH:MM:SS+00:00`. -/
def epochToIso (n : Int) : String :=
  let days := Int.ediv n 86400
  let secs := (Int.emod n 86400).toNat
  let ymd := civilFromDays days
  pad4 ymd.1.toNat ++ "-" ++ pad2 ymd.2.1 ++ "-" ++ pad2 ymd.2.2 ++ "T" ++
    pad2 (secs / 3600) ++ ":" ++ pad2 (secs % 3600 / 60) ++ ":" ++
    pad2 (secs % 60) ++ "+00:00"

/-- The `timestamp` field of an `embed` request: numeric (whole-second
epoch), a string, or absent.  (`datetime.fromtimestamp` also accepts
fractional epochs; the claims only concern whole numbers.) -/
inductive TSVal where
  | num (n : Int)
  | str (s : String)
  | absent
deriving DecidableEq

/-- Python `s.replace('Z', '+00:00')` — the pattern is the single
character `'Z'`. -/
def replaceZ (s : String) : String :=
  String.mk (s.data.foldr
    (fun c acc => (if c.toNat == 90 then "+00:00".data else [c]) ++ acc) [])

/-- The timestamp preprocessing in `embed` (`src/app.py`):
```
timestamp = data.get("timestamp")
if timestamp:                      # Python truthiness: 0 and "" are falsy
    if isinstance(timestamp, (int, float)):
        timestamp = datetime.fromtimestamp(timestamp, tz=timezone.utc).isoformat()
    elif isinstance(timestamp, str):
        try:
            datetime.fromisoformat(timestamp.replace('Z', '+00:00'))
        except ValueError:
            timestamp = datetime.now(timezone.utc).isoformat()
else:
    timestamp = datetime.now(timezone.utc).isoformat()
```
`parseOk` stands for `datetime.fromisoformat` succeeding and `now` for the
current UTC time's isoformat. -/
def embed_timestamp (parseOk : String → Bool) (now : String) : TSVal → String
  | .absent => now
  | .num n => if n = 0 then now else epochToIso n
  | .str s =>
    if s = "" then now
    else if parseOk (replaceZ s) then s else now

/-! ### Invariant predicates used by the normalizer proofs -/

/-- Every whitespace character of the list is a plain space. -/
def wsSingle (l : List Char) : Prop := ∀ c ∈ l, isWS c = true → c = ' '

/-- No two adjacent characters of the list are both whitespace. -/
def wsNoPair (l : List Char) : Prop :=
  l.Chain' (fun a b => ¬(isWS a = true ∧ isWS b = true))

/-- Whether a character list ends in a whitespace character. -/
def endsWS (l : List Char) : Bool :=
  match l.getLast? with
  | some c => isWS c
  | none => false

/-!
## Theorems

General lemmas about the building blocks first, then one theorem (plus
witness or counterexample) per specification claim.
-/

/-! ### Character-level lemmas -/

theorem toNat_ofNat_valid (n : Nat) (h : n < 55296) : (Char.ofNat n).toNat = n := by
  simp [Char.ofNat, Nat.isValidChar, h, Char.ofNatAux, Char.toNat, UInt32.ofNat', UInt32.toNat]

theorem foldChar_toNat (c : Char) :
    (foldChar c).toNat = if 65 ≤ c.toNat ∧ c.toNat ≤ 90 then c.toNat + 32 else c.toNat := by
  unfold foldChar
  split
  · exact toNat_ofNat_valid _ (by omega)
  · rfl

theorem isWS_foldChar (c : Char) : isWS (foldChar c) = isWS c := by
  have h := foldChar_toNat c
  rw [Bool.eq_iff_iff]
  simp only [isWS, Bool.or_eq_true, beq_iff_eq, h]
  split <;> omega

theorem isTermPunct_foldChar (c : Char) : isTermPunct (foldChar c) = isTermPunct c := by
  have h := foldChar_toNat c
  rw [Bool.eq_iff_iff]
  simp only [isTermPunct, Bool.or_eq_true, beq_iff_eq, h]
  split <;> omega

theorem foldChar_foldChar (c : Char) : foldChar (foldChar c) = foldChar c := by
  have h := foldChar_toNat c
  rw [foldChar]
  split
  · next hin =>
    rw [h] at hin
    split at hin <;> (exfalso; omega)
  · rfl

/-! ### `dropWhile`/`rdropWhile` lemmas -/

theorem head?_dropWhile_false (p : Char → Bool) :
    ∀ (l : List Char) (c : Char), (l.dropWhile p).head? = some c → p c = false := by
  intro l
  induction l with
  | nil => simp
  | cons a l ih =>
    intro c h
    rw [List.dropWhile_cons] at h
    split at h
    · exact ih c h
    · next hp =>
      simp only [List.head?_cons, Option.some.injEq] at h
      subst h
      simpa using hp

theorem dropWhile_eq_self_of_head? (p : Char → Bool) (l : List Char)
    (h : ∀ c, l.head? = some c → p c = false) : l.dropWhile p = l := by
  cases l with
  | nil => rfl
  | cons a l => rw [List.dropWhile_cons, if_neg (by simp [h a rfl])]

theorem getLast?_rdropWhile_false (p : Char → Bool) (l : List Char) (c : Char)
    (h : (l.rdropWhile p).getLast? = some c) : p c = false := by
  rw [List.rdropWhile, List.getLast?_reverse] at h
  exact head?_dropWhile_false p _ c h

theorem rdropWhile_eq_self_of_getLast? (p : Char → Bool) (l : List Char)
    (h : ∀ c, l.getLast? = some c → p c = false) : l.rdropWhile p = l := by
  rw [List.rdropWhile, dropWhile_eq_self_of_head? p l.reverse
    (fun c hc => h c (by rwa [List.head?_reverse] at hc)), List.reverse_reverse]

theorem head?_of_pfx {l₁ l₂ : List Char} (h : l₁ <+: l₂) (c : Char)
    (hc : l₁.head? = some c) : l₂.head? = some c := by
  rcases h with ⟨t, rfl⟩
  cases l₁ with
  | nil => simp at hc
  | cons a l => simpa using hc

/-! ### `collapseWS` lemmas -/

theorem collapseWS_cons_of_not_ws {c : Char} (hc : isWS c = false) (r : List Char) :
    collapseWS (c :: r) = c :: collapseWS r := by
  cases r with
  | nil => simp [collapseWS, hc]
  | cons d rest => simp [collapseWS, hc]

theorem head?_collapseWS_of_ws :
    ∀ (r : List Char) (c : Char), isWS c = true → (collapseWS (c :: r)).head? = some ' ' := by
  intro r
  induction r with
  | nil => intro c hc; simp [collapseWS, hc]
  | cons d rest ih =>
    intro c hc
    by_cases hd : isWS d = true
    · rw [show collapseWS (c :: d :: rest) = collapseWS (d :: rest) by simp [collapseWS, hc, hd]]
      exact ih d hd
    · simp [collapseWS, hc, hd]

theorem head?_collapseWS_false (l : List Char)
    (h : ∀ c, l.head? = some c → isWS c = false) :
    ∀ c, (collapseWS l).head? = some c → isWS c = false := by
  cases l with
  | nil => simp [collapseWS]
  | cons a r =>
    intro c hc
    rw [collapseWS_cons_of_not_ws (h a rfl) r] at hc
    simp only [List.head?_cons, Option.some.injEq] at hc
    subst hc
    exact h a rfl

theorem wsSingle_collapseWS : ∀ l : List Char, wsSingle (collapseWS l) := by
  intro l
  induction l with
  | nil => intro c hc _; simp [collapseWS] at hc
  | cons a r ih =>
    cases r with
    | nil =>
      intro c hc hws
      by_cases ha : isWS a = true
      · simp [collapseWS, ha] at hc; subst hc; rfl
      · rw [Bool.not_eq_true] at ha
        simp [collapseWS, ha] at hc; subst hc; rw [hws] at ha; cases ha
    | cons d rest =>
      intro c hc hws
      by_cases ha : isWS a = true
      · by_cases hd : isWS d = true
        · rw [show collapseWS (a :: d :: rest) = collapseWS (d :: rest) from by
            simp [collapseWS, ha, hd]] at hc
          exact ih c hc hws
        · rw [Bool.not_eq_true] at hd
          rw [show collapseWS (a :: d :: rest) = ' ' :: collapseWS (d :: rest) from by
            simp [collapseWS, ha, hd]] at hc
          rcases List.mem_cons.mp hc with rfl | hmem
          · rfl
          · exact ih c hmem hws
      · rw [Bool.not_eq_true] at ha
        rw [show collapseWS (a :: d :: rest) = a :: collapseWS (d :: rest) from by
          simp [collapseWS, ha]] at hc
        rcases List.mem_cons.mp hc with rfl | hmem
        · rw [hws] at ha; cases ha
        · exact ih c hmem hws

theorem wsNoPair_collapseWS : ∀ l : List Char, wsNoPair (collapseWS l) := by
  intro l
  induction l with
  | nil => simp [collapseWS, wsNoPair]
  | cons a r ih =>
    cases r with
    | nil => rw [wsNoPair]; simp [collapseWS]
    | cons d rest =>
      by_cases ha : isWS a = true
      · by_cases hd : isWS d = true
        · rw [wsNoPair, show collapseWS (a :: d :: rest) = collapseWS (d :: rest) from by
            simp [collapseWS, ha, hd]]
          exact ih
        · rw [Bool.not_eq_true] at hd
          rw [wsNoPair, show collapseWS (a :: d :: rest) = ' ' :: collapseWS (d :: rest) from by
            simp [collapseWS, ha, hd]]
          rw [List.chain'_cons']
          refine ⟨?_, ih⟩
          intro y hy
          rw [collapseWS_cons_of_not_ws hd rest, Option.mem_def, List.head?_cons,
            Option.some.injEq] at hy
          subst hy
          intro hcon
          rw [hd] at hcon
          cases hcon.2
      · rw [Bool.not_eq_true] at ha
        rw [wsNoPair, show collapseWS (a :: d :: rest) = a :: collapseWS (d :: rest) from by
          simp [collapseWS, ha]]
        rw [List.chain'_cons']
        refine ⟨?_, ih⟩
        intro y _ hcon
        rw [ha] at hcon
        cases hcon.1

theorem collapseWS_eq_self (l : List Char) (h1 : wsSingle l) (h2 : wsNoPair l) :
    collapseWS l = l := by
  induction l with
  | nil => rfl
  | cons a r ih =>
    cases r with
    | nil =>
      show [if isWS a then ' ' else a] = [a]
      by_cases ha : isWS a = true
      · rw [if_pos ha, h1 a (by simp) ha]
      · rw [if_neg ha]
    | cons d rest =>
      have hrel : ¬(isWS a = true ∧ isWS d = true) :=
        (List.chain'_cons.mp h2).1
      have hnand : (isWS a && isWS d) = false := by
        cases hha : isWS a
        · simp
        · cases hhd : isWS d
          · simp
          · exact absurd ⟨hha, hhd⟩ hrel
      show (if isWS a && isWS d then collapseWS (d :: rest)
            else (if isWS a then ' ' else a) :: collapseWS (d :: rest)) = a :: d :: rest
      rw [hnand]
      simp only [Bool.false_eq_true, if_false]
      have htail : collapseWS (d :: rest) = d :: rest :=
        ih (fun c hc => h1 c (List.mem_cons_of_mem a hc)) (List.chain'_cons.mp h2).2
      rw [htail]
      by_cases ha : isWS a = true
      · rw [if_pos ha, h1 a (by simp) ha]
      · rw [if_neg ha]

theorem wsSingle_of_pfx {l₁ l₂ : List Char} (h : wsSingle l₂) (hp : l₁ <+: l₂) :
    wsSingle l₁ :=
  fun c hc => h c (hp.sublist.subset hc)

theorem wsNoPair_of_pfx {l₁ l₂ : List Char} (h : wsNoPair l₂) (hp : l₁ <+: l₂) :
    wsNoPair l₁ :=
  List.Chain'.prefix h hp

theorem wsSingle_caseFold {l : List Char} (h : wsSingle l) : wsSingle (caseFoldList l) := by
  intro c hc hws
  rcases List.mem_map.mp hc with ⟨y, hy, rfl⟩
  rw [isWS_foldChar] at hws
  rw [h y hy hws]
  decide

theorem wsNoPair_caseFold {l : List Char} (h : wsNoPair l) : wsNoPair (caseFoldList l) := by
  rw [wsNoPair, caseFoldList, List.chain'_map]
  exact h.imp (fun a b hab => by rw [isWS_foldChar, isWS_foldChar]; exact hab)

theorem caseFoldList_idem (l : List Char) : caseFoldList (caseFoldList l) = caseFoldList l := by
  rw [caseFoldList, caseFoldList, List.map_map]
  exact List.map_congr_left (fun c _ => foldChar_foldChar c)

/-- The fixed-point core of the amended normalization-idempotence claim: if
the normalized form does not end in whitespace, normalizing again is the
identity. -/
theorem normList_fix (l : List Char) (h : endsWS (normList l) = false) :
    normList (normList l) = normList l := by
  set n := normList l with hn
  have hlast : ∀ c, n.getLast? = some c → isWS c = false := by
    intro c hc
    rw [endsWS, hc] at h
    exact h
  -- head of n is not whitespace
  have hhead : ∀ c, n.head? = some c → isWS c = false := by
    have h0 : ∀ c, (pyStripList l).head? = some c → isWS c = false := by
      intro c hc
      exact head?_dropWhile_false isWS l c
        (head?_of_pfx ( List.rdropWhile_prefix isWS (l.dropWhile isWS)) c hc)
    have h1 := head?_collapseWS_false _ h0
    have h2 : ∀ c, (rstripPunct (collapseWS (pyStripList l))).head? = some c →
        isWS c = false := by
      intro c hc
      exact h1 c (head?_of_pfx ( List.rdropWhile_prefix isTermPunct _) c hc)
    intro c hc
    rw [hn, normList, caseFoldList, List.head?_map] at hc
    rcases Option.map_eq_some'.mp hc with ⟨y, hy, rfl⟩
    rw [isWS_foldChar]
    exact h2 y hy
  -- n has collapsed whitespace
  have hsingle : wsSingle n := by
    rw [hn, normList]
    exact wsSingle_caseFold
      (wsSingle_of_pfx (wsSingle_collapseWS _) ( List.rdropWhile_prefix _ _))
  have hnopair : wsNoPair n := by
    rw [hn, normList]
    exact wsNoPair_caseFold
      (wsNoPair_of_pfx (wsNoPair_collapseWS _) ( List.rdropWhile_prefix _ _))
  -- n does not end in terminal punctuation
  have hpunct : ∀ c, n.getLast? = some c → isTermPunct c = false := by
    intro c hc
    rw [hn, normList, caseFoldList, List.getLast?_map] at hc
    rcases Option.map_eq_some'.mp hc with ⟨y, hy, rfl⟩
    rw [isTermPunct_foldChar]
    exact getLast?_rdropWhile_false isTermPunct _ y hy
  -- run each stage on n
  have e1 : pyStripList n = n := by
    rw [pyStripList, dropWhile_eq_self_of_head? isWS n hhead,
      rdropWhile_eq_self_of_getLast? isWS n hlast]
  have e2 : collapseWS n = n := collapseWS_eq_self n hsingle hnopair
  have e3 : rstripPunct n = n := rdropWhile_eq_self_of_getLast? isTermPunct n hpunct
  have e4 : caseFoldList n = n := by
    rw [hn, normList]
    exact caseFoldList_idem _
  show normList n = n
  rw [normList, e1, e2, e3, e4]

/-! ### Evaluation checks -/

example : normalize_phrase "  Click   HERE to win!!! " = "click here to win" := by decide
example : normalize_phrase "안녕하세요。" = "안녕하세요" := by decide

set_option maxRecDepth 40000 in
example : sha1Hex (utf8Bytes "abc") = "a9993e364706816aba3e25717850c26c9cd0d89d" := by decide

example : epochToIso 0 = "1970-01-01T00:00:00+00:00" := by decide
example : epochToIso 1700000000 = "2023-11-14T22:13:20+00:00" := by decide

/-! ### Claim C5 — normalization idempotence -/

/-- C5, counterexample: the claim `normalize (normalize s) = normalize s`
for **all** strings fails on the code.  Stripping trailing punctuation runs
after whitespace collapsing, so `"a ."` normalizes to `"a "` (a trailing
space is exposed), and normalizing again yields `"a"`. -/
theorem c5_counterexample :
    normalize_phrase "a ." = "a " ∧
    normalize_phrase (normalize_phrase "a .") = "a" ∧
    normalize_phrase (normalize_phrase "a .") ≠ normalize_phrase "a ." := by
  exact ⟨by decide, by decide, by decide⟩

/-- C5, amended: `normalize_phrase` is idempotent on every string whose
normalized form does not end in whitespace — equivalently, whenever
stripping the trailing punctuation run does not expose a trailing space.
(The trim / collapse / punctuation-strip / casefold stages are otherwise
individually fixed by a normalized string, as the proof shows.) -/
theorem c5_normalize_idempotent_unless_trailing_ws (s : String)
    (h : endsWS (normalize_phrase s).data = false) :
    normalize_phrase (normalize_phrase s) = normalize_phrase s :=
  congrArg String.mk (normList_fix s.data h)

/-- C5 witness: a concrete instance of the amended idempotence theorem. -/
theorem c5_witness :
    endsWS (normalize_phrase "An  Example!").data = false ∧
    normalize_phrase (normalize_phrase "An  Example!") = normalize_phrase "An  Example!" :=
  ⟨by decide, c5_normalize_idempotent_unless_trailing_ws "An  Example!" (by decide)⟩

/-! ### Claim C1 — score-to-decision policy -/

/-- C1: whenever the top knn hit carries a numeric similarity score `s` and
the resolved threshold is `t`, the classification body has
`distance = 1 - s` and `block` is decided by `s >= t` — `block` is true
exactly when `s ≥ t`. -/
theorem c1_block_iff_similarity_ge_threshold (top : Hit) (s threshold : ℚ)
    (h : top.score = some s) :
    (formatWithHit top threshold).1.distance = some (1 - s) ∧
    ((formatWithHit top threshold).1.block = true ↔ s ≥ threshold) := by
  simp [formatWithHit, h]

/-- C1 witness: Scenario A shape — similarity `17/20 = 0.85` against
threshold `4/5 = 0.8` blocks, with distance `3/20 = 0.15`. -/
theorem c1_witness :
    (formatWithHit { label := some "spam", score := some (17/20) } (4/5)).1.block = true ∧
    (formatWithHit { label := some "spam", score := some (17/20) } (4/5)).1.distance =
      some (3/20) := by
  have h := c1_block_iff_similarity_ge_threshold
    { label := some "spam", score := some (17/20) } (17/20) (4/5) rfl
  refine ⟨h.2.mpr (by norm_num), ?_⟩
  rw [h.1]
  norm_num

/-! ### Claim C9 — no blocking without a numeric score -/

/-- C9: a top hit with a missing (`None`) score yields `block = false` with
`similarity` and `distance` both null; and across `should_block`,
`block = true` only ever occurs together with a numeric similarity that is
`≥` the threshold. -/
theorem c9_block_requires_numeric_score :
    (∀ (top : Hit) (threshold : ℚ), top.score = none →
      (formatWithHit top threshold).1.block = false ∧
      (formatWithHit top threshold).1.similarity = none ∧
      (formatWithHit top threshold).1.distance = none) ∧
    (∀ (text : String) (threshold : ℚ) (search : SearchOutcome)
        (body : BlockBody) (status : Nat),
      should_block text threshold search = .ok body status →
      body.block = true → ∃ s : ℚ, body.similarity = some s ∧ s ≥ threshold) := by
  constructor
  · intro top threshold h
    refine ⟨?_, ?_, ?_⟩ <;> simp [formatWithHit, h]
  · intro text threshold search body status hok hblock
    rw [should_block] at hok
    split at hok
    · cases hok
    · split at hok
      · cases hok
        simp [formatNoHit] at hblock
      · next top _ =>
        cases hok
        cases hsc : top.score with
        | none => simp [formatWithHit, hsc] at hblock
        | some s =>
          refine ⟨s, by simp [formatWithHit, hsc], ?_⟩
          have hd : decide (s ≥ threshold) = true := by
            simpa [formatWithHit, hsc] using hblock
          exact of_decide_eq_true hd

/-- C9 witness: a score-less hit at threshold `4/5`. -/
theorem c9_witness :
    (formatWithHit { label := some "spam", score := none } (4/5)).1.block = false ∧
    (formatWithHit { label := some "spam", score := none } (4/5)).1.similarity = none ∧
    (formatWithHit { label := some "spam", score := none } (4/5)).1.distance = none :=
  c9_block_requires_numeric_score.1 { label := some "spam", score := none } (4/5) rfl

/-! ### Claim C2 — fail-open classification -/

/-- C2: for every valid (non-whitespace) input, both an empty knn result
and a raised search exception produce the well-formed fail-open body
`{block: false, label: null, similarity: null, distance: null, threshold,
reason: "no_seed_match"}` with HTTP 200, never an error. -/
theorem c2_fail_open (text : String) (threshold : ℚ) (search : SearchOutcome)
    (hvalid : pyStrip text ≠ "")
    (hmiss : search = .failure ∨ search = .ok []) :
    should_block text threshold search =
      .ok { block := false, label := none, similarity := none, distance := none,
            threshold := threshold, reason := some "no_seed_match" } 200 := by
  have hne : ¬(text = "" ∨ pyStrip text = "") := by
    rintro (rfl | hh)
    · exact hvalid rfl
    · exact hvalid hh
  rcases hmiss with rfl | rfl <;> simp [should_block, hne, searchTopHit, formatNoHit]

/-- C2 witness: Scenario B shape — valid text, failing store. -/
theorem c2_witness :
    should_block "hello" (4/5) .failure =
      .ok { block := false, label := none, similarity := none, distance := none,
            threshold := 4/5, reason := some "no_seed_match" } 200 :=
  c2_fail_open "hello" (4/5) .failure (by decide) (Or.inl rfl)

/-! ### Claim C3 — embedding roles -/

/-- C3, counterexample: the claim says seed phrases are embedded in the
passage/stored role.  In the code, `add_seeds` calls `get_embedding(p)`
with the **default** `kind="query"`, so a seed phrase is formatted with the
`"query: "` marker, not the `"passage: "` marker. -/
theorem c3_counterexample :
    add_seeds_embed_input "click here to win" = "query: click here to win" ∧
    get_embedding_input "click here to win" "passage" = "passage: click here to win" ∧
    add_seeds_embed_input "click here to win" ≠
      get_embedding_input "click here to win" "passage" := by
  exact ⟨rfl, rfl, by decide⟩

/-- C3, amended: both sides use the **same** query/live-input role — seed
phrases and classification inputs are each embedded via `get_embedding`'s
default `kind="query"`, i.e. the framing is applied symmetrically
(consistently across write and read paths), not with opposite roles. -/
theorem c3_both_sides_query_role (p text : String) :
    add_seeds_embed_input p = "query: " ++ p ∧
    should_block_embed_input text = "query: " ++ text ∧
    add_seeds_embed_input p = get_embedding_input p "query" ∧
    should_block_embed_input text = get_embedding_input text "query" :=
  ⟨rfl, rfl, rfl, rfl⟩

/-! ### Claim C6 — timestamp normalization -/

/-- C6, counterexample: the claim says a numeric epoch **including 0** is
converted to its ISO-8601 UTC string.  The code guards with Python
truthiness (`if timestamp:`), so `timestamp = 0` falls into the absent
branch and is replaced by the current time instead of
`"1970-01-01T00:00:00+00:00"`. -/
theorem c6_counterexample :
    embed_timestamp (fun _ => true) "2026-10-12T00:00:00+00:00" (.num 0) =
      "2026-10-12T00:00:00+00:00" ∧
    epochToIso 0 = "1970-01-01T00:00:00+00:00" ∧
    embed_timestamp (fun _ => true) "2026-10-12T00:00:00+00:00" (.num 0) ≠ epochToIso 0 := by
  exact ⟨rfl, by decide, by decide⟩

/-- C6, amended: a **non-zero** numeric epoch is converted to its ISO-8601
UTC string; numeric `0` is treated like an absent timestamp and replaced by
the current UTC time; a non-empty string that parses (after the
`'Z' → '+00:00'` substitution) is kept as-is; a non-empty string that fails
to parse is replaced by the current UTC time; an empty string or an absent
timestamp is replaced by the current UTC time. -/
theorem c6_timestamp_normalization (parseOk : String → Bool) (now : String) :
    embed_timestamp parseOk now .absent = now ∧
    (∀ n : Int, n ≠ 0 → embed_timestamp parseOk now (.num n) = epochToIso n) ∧
    embed_timestamp parseOk now (.num 0) = now ∧
    (∀ s : String, s ≠ "" → parseOk (replaceZ s) = true →
      embed_timestamp parseOk now (.str s) = s) ∧
    (∀ s : String, s ≠ "" → parseOk (replaceZ s) = false →
      embed_timestamp parseOk now (.str s) = now) ∧
    embed_timestamp parseOk now (.str "") = now := by
  refine ⟨rfl, ?_, rfl, ?_, ?_, rfl⟩
  · intro n hn
    simp [embed_timestamp, hn]
  · intro s hs hp
    simp [embed_timestamp, hs, hp]
  · intro s hs hp
    simp [embed_timestamp, hs, hp]

/-- C6 witness: a concrete non-zero epoch is converted. -/
theorem c6_witness :
    embed_timestamp (fun _ => false) "NOW" (.num 1700000000) =
      "2023-11-14T22:13:20+00:00" := by
  have h := (c6_timestamp_normalization (fun _ => false) "NOW").2.1 1700000000 (by decide)
  rw [h]
  decide

/-! ### Claim C7 — batch partial success -/

theorem addSeedsLoop_length_aux (label now : String) (embOf : String → List ℚ) :
    ∀ (phrases : List PVal) (st : SeedStore) (acc : List SeedResult),
    (phrases.foldl (addSeedsStep label now embOf) (st, acc)).2.length =
      acc.length + (phrases.filter isValidPhrase).length := by
  intro phrases
  induction phrases with
  | nil => intro st acc; simp
  | cons p ps ih =>
    intro st acc
    cases p with
    | pother => simpa [addSeedsStep, isValidPhrase] using ih st acc
    | pstr s =>
      by_cases hs : pyStrip s = ""
      · simpa [addSeedsStep, hs, isValidPhrase] using ih st acc
      · have h2 := ih (upsertSeedPhrase st label s now embOf)
          (acc ++ [{ id := seedDocId label s,
                     result := if esExists st (seedDocId label s) then "updated" else "created",
                     phrase := s, label := label }])
        have hstep : addSeedsStep label now embOf (st, acc) (.pstr s) =
            (upsertSeedPhrase st label s now embOf,
             acc ++ [{ id := seedDocId label s,
                       result := if esExists st (seedDocId label s) then "updated" else "created",
                       phrase := s, label := label }]) := by
          simp [addSeedsStep, hs]
        have hvp : isValidPhrase (.pstr s) = true := by simp [isValidPhrase, hs]
        rw [List.foldl_cons, hstep, h2, List.filter_cons, hvp]
        simp
        omega

/-- C7: every batch entry that is not a string, or is empty or
whitespace-only after trimming, is skipped without failing the batch, and
the returned `count` equals the number of valid entries; in particular the
batch `["valid phrase", "", "  ", "another valid"]` yields `count = 2`. -/
theorem c7_count_equals_valid_entries :
    (∀ (label now : String) (embOf : String → List ℚ) (phrases : List PVal)
        (store : SeedStore),
      addSeedsCount label now embOf phrases store =
        (phrases.filter isValidPhrase).length) ∧
    addSeedsCount "intent" "NOW" (fun _ => [])
      [.pstr "valid phrase", .pstr "", .pstr "  ", .pstr "another valid"] [] = 2 := by
  have hmain : ∀ (label now : String) (embOf : String → List ℚ) (phrases : List PVal)
      (store : SeedStore),
      addSeedsCount label now embOf phrases store =
        (phrases.filter isValidPhrase).length := by
    intro label now embOf phrases store
    rw [addSeedsCount, addSeedsLoop, addSeedsLoop_length_aux]
    simp
  refine ⟨hmain, ?_⟩
  rw [hmain]
  decide

/-! ### Claim C4 — idempotent seed upsert -/

theorem filter_esIndex_self_length (st : SeedStore) (id : String) (d : SeedDoc) :
    ((esIndex st id d).filter (fun kv => kv.1 == id)).length = 1 := by
  rw [esIndex, List.filter_append, List.filter_filter]
  have h1 : st.filter (fun kv => (kv.1 == id) && decide (kv.1 ≠ id)) = [] := by
    apply List.filter_eq_nil_iff.mpr
    intro kv _
    by_cases h : kv.1 = id <;> simp [h]
  rw [h1]
  simp

theorem esIndex_esIndex_length (st : SeedStore) (id : String) (d1 d2 : SeedDoc) :
    (esIndex (esIndex st id d1) id d2).length = (esIndex st id d1).length := by
  show ((esIndex st id d1).filter (fun kv => kv.1 ≠ id) ++ [(id, d2)]).length =
    ((st.filter (fun kv => kv.1 ≠ id)) ++ [(id, d1)]).length
  rw [esIndex, List.filter_append, List.filter_filter]
  simp

set_option maxRecDepth 40000 in
/-- C4: upserting the same `(label, phrase)` pair twice leaves exactly one
document at the pair's identity key and does not grow the store — the
identity is the SHA-1 hex of `label + "|" + normalized phrase` (checked
concretely against a known digest), so the second upsert overwrites the
first. -/
theorem c4_second_upsert_overwrites (store : SeedStore) (label p now1 now2 : String)
    (e1 e2 : String → List ℚ) :
    ((upsertSeedPhrase (upsertSeedPhrase store label p now1 e1) label p now2 e2).filter
        (fun kv => kv.1 == seedDocId label p)).length = 1 ∧
    (upsertSeedPhrase (upsertSeedPhrase store label p now1 e1) label p now2 e2).length =
      (upsertSeedPhrase store label p now1 e1).length ∧
    seedDocId label p = sha1Hex (utf8Bytes (label ++ "|" ++ normalize_phrase p)) ∧
    seedDocId "spam" "Click  here to WIN!" = "b3cd462f3e97bbb8a30e7a7f00b113a8bd2ed7a0" :=
  ⟨filter_esIndex_self_length _ _ _, esIndex_esIndex_length _ _ _ _, rfl, by decide⟩

/-! ### Claim C10 — bootstrap never touches existing documents -/

theorem esExists_of_esGet :
    ∀ (st : SeedStore) (k : String) (v : SeedDoc),
      esGet st k = some v → esExists st k = true := by
  intro st
  induction st with
  | nil => intro k v h; simp [esGet, List.lookup] at h
  | cons kv st ih =>
    intro k v h
    obtain ⟨a, b⟩ := kv
    by_cases hk : k = a
    · subst hk
      simp [esExists, List.any_cons]
    · simp only [esGet, List.lookup, show (k == a) = false from by simp [hk]] at h
      rw [esExists, List.any_cons]
      simp only [show (a == k) = false from by simp [Ne.symm hk], Bool.false_or]
      exact ih k v h

theorem esGet_esIndex_ne (st : SeedStore) (id k : String) (d : SeedDoc) (hk : k ≠ id) :
    esGet (esIndex st id d) k = esGet st k := by
  induction st with
  | nil =>
    simp [esGet, esIndex, List.lookup, show (k == id) = false from by simp [hk]]
  | cons kv st ih =>
    obtain ⟨a, b⟩ := kv
    rw [esIndex, List.filter_cons]
    by_cases ha : a = id
    · rw [if_neg (by simp [ha])]
      rw [show (st.filter (fun kv => kv.1 ≠ id) ++ [(id, d)]) = esIndex st id d from rfl, ih]
      simp [esGet, List.lookup, show (k == a) = false from by simp [ha ▸ hk]]
    · rw [if_pos (by simp [ha])]
      by_cases hka : k = a
      · subst hka
        simp [esGet, List.lookup]
      · simp only [esGet, List.lookup, List.cons_append,
          show (k == a) = false from by simp [hka]]
        exact ih

theorem bootSeedPhrase_preserves (label now : String) (embOf : String → List ℚ)
    (st : SeedStore) (p : PVal) (k : String) (v : SeedDoc)
    (h : esGet st k = some v) :
    esGet (bootSeedPhrase label now embOf st p) k = some v := by
  cases p with
  | pother => exact h
  | pstr s =>
    simp only [bootSeedPhrase]
    split
    · exact h
    · split
      · exact h
      · next hex =>
        have hk : k ≠ seedDocId label s := by
          intro heq
          exact hex (heq ▸ esExists_of_esGet st k v h)
        rw [esGet_esIndex_ne st _ k _ hk]
        exact h

theorem foldl_bootSeedPhrase_preserves (label now : String) (embOf : String → List ℚ)
    (k : String) (v : SeedDoc) :
    ∀ (ps : List PVal) (st : SeedStore), esGet st k = some v →
      esGet (ps.foldl (bootSeedPhrase label now embOf) st) k = some v := by
  intro ps
  induction ps with
  | nil => intro st h; exact h
  | cons p ps ih =>
    intro st h
    rw [List.foldl_cons]
    exact ih _ (bootSeedPhrase_preserves label now embOf st p k v h)

/-- C10: a bootstrap run leaves every identity key that is already present
untouched — the stored document (its `created_at` and `embedding`
included) is returned unchanged afterwards — and any key whose binding
changed was previously absent. -/
theorem c10_bootstrap_preserves_existing (store : SeedStore)
    (seeds : List (String × List PVal)) (now : String) (embOf : String → List ℚ) :
    (∀ (k : String) (v : SeedDoc), esGet store k = some v →
      esGet (add_default_seeds store seeds now embOf) k = some v) ∧
    (∀ k : String, esGet (add_default_seeds store seeds now embOf) k ≠ esGet store k →
      esGet store k = none) := by
  have hmain : ∀ (k : String) (v : SeedDoc), esGet store k = some v →
      esGet (add_default_seeds store seeds now embOf) k = some v := by
    intro k v
    rw [add_default_seeds]
    have aux : ∀ (ss : List (String × List PVal)) (st : SeedStore),
        esGet st k = some v →
        esGet (ss.foldl (fun st ld => ld.2.foldl (bootSeedPhrase ld.1 now embOf) st) st)
          k = some v := by
      intro ss
      induction ss with
      | nil => intro st h; exact h
      | cons ld ss ih =>
        intro st h
        rw [List.foldl_cons]
        exact ih _ (foldl_bootSeedPhrase_preserves ld.1 now embOf k v ld.2 st h)
    exact aux seeds store
  refine ⟨hmain, ?_⟩
  intro k hne
  cases hv : esGet store k with
  | none => rfl
  | some v => exact absurd (hmain k v hv) (hv ▸ hne)

set_option maxRecDepth 40000 in
/-- C10 witness: a store already holding the `("spam", "hi")` seed is left
unchanged by a bootstrap run that supplies the same pair again with a
different timestamp and embedding. -/
theorem c10_witness :
    esGet (add_default_seeds
        [(seedDocId "spam" "hi", mkSeedDoc "spam" "hi" "T0" (fun _ => []))]
        [("spam", [.pstr "hi"])] "T1" (fun _ => []))
      (seedDocId "spam" "hi") = some (mkSeedDoc "spam" "hi" "T0" (fun _ => [])) :=
  (c10_bootstrap_preserves_existing
      [(seedDocId "spam" "hi", mkSeedDoc "spam" "hi" "T0" (fun _ => []))]
      [("spam", [.pstr "hi"])] "T1" (fun _ => [])).1
    (seedDocId "spam" "hi") (mkSeedDoc "spam" "hi" "T0" (fun _ => [])) (by decide)

/-! ### Claim C8 — label filter resolution and restriction -/

theorem foldl_knnPick_mem (q : List ℚ) :
    ∀ (l : List (String × SeedDoc)) (b : String × SeedDoc),
      l.foldl (knnPick q) b ∈ b :: l := by
  intro l
  induction l with
  | nil => intro b; simp
  | cons x l ih =>
    intro b
    rw [List.foldl_cons]
    rcases List.mem_cons.mp (ih (knnPick q b x)) with h | h
    · rw [h, knnPick]
      split
      · simp
      · simp
    · simp [List.mem_cons, h]

/-- C8: the label filter is resolved from the single-label field or the
multi-label field, with blank/invalid inputs meaning "no filter"; and
whenever the knn query returns a top hit, that hit's label satisfies the
filter — so with a filter present only matching seeds are eligible, even
if a non-matching seed scores strictly higher (Scenario C below: the
`labelB` seed is strictly closer, yet the filtered query returns the
`labelA` seed). -/
theorem c8_filter_resolution_and_restriction :
    (∀ (store : SeedStore) (q : List ℚ) (f : Option ESFilter) (hit : Hit),
      knnSearchTop1 store q f = some hit →
      ∃ l, hit.label = some l ∧ matchesFilter f l = true) ∧
    (∀ (s : String) (lsV : JVal), pyStrip s ≠ "" →
      resolveFilters (.jstr s) lsV = some (.term s)) ∧
    (∀ (lV lsV : JVal), singleLabelValid lV = false → multiLabels lsV ≠ [] →
      resolveFilters lV lsV = some (.terms (multiLabels lsV))) ∧
    (∀ (lV lsV : JVal), singleLabelValid lV = false → multiLabels lsV = [] →
      resolveFilters lV lsV = none) ∧
    knnSearchTop1 c8ScenarioStore [1] (resolveFilters .jnull (.jlist [.jstr "labelA"])) =
      some { label := some "labelA", score := some (esCosScore [1] [1]) } ∧
    knnSearchTop1 c8ScenarioStore [1] none =
      some { label := some "labelB", score := some (esCosScore [1] [3]) } ∧
    esCosScore [1] [3] > esCosScore [1] [1] := by
  refine ⟨?_, ?_, ?_, ?_, ?_, ?_, ?_⟩
  · intro store q f hit h
    rw [knnSearchTop1] at h
    split at h
    · cases h
    · next kv rest heq =>
      cases h
      refine ⟨(rest.foldl (knnPick q) kv).2.label, rfl, ?_⟩
      have hmem : rest.foldl (knnPick q) kv ∈
          store.filter (fun kv => matchesFilter f kv.2.label) := by
        rw [heq]
        exact foldl_knnPick_mem q rest kv
      exact (List.mem_filter.mp hmem).2
  · intro s lsV h
    simp [resolveFilters, h]
  · intro lV lsV h1 h2
    have hfrom : resolveFilters.resolveFiltersFromLabels lsV =
        some (.terms (multiLabels lsV)) := by
      cases lsV with
      | jlist xs =>
        have hxs : ¬xs.isEmpty := by
          intro hx
          rw [List.isEmpty_iff] at hx
          subst hx
          exact h2 rfl
        have hls : ¬(xs.filterMap validLabel).isEmpty := by
          intro hx
          rw [List.isEmpty_iff] at hx
          exact h2 hx
        simp [resolveFilters.resolveFiltersFromLabels, hxs, hls, multiLabels]
      | jstr s => exact absurd rfl h2
      | jnull => exact absurd rfl h2
      | jother => exact absurd rfl h2
    cases lV with
    | jstr s =>
      have hs : pyStrip s = "" := by simpa [singleLabelValid] using h1
      simp [resolveFilters, hs, hfrom]
    | jnull => simpa [resolveFilters] using hfrom
    | jlist xs => simpa [resolveFilters] using hfrom
    | jother => simpa [resolveFilters] using hfrom
  · intro lV lsV h1 h2
    have hfrom : resolveFilters.resolveFiltersFromLabels lsV = none := by
      cases lsV with
      | jlist xs =>
        cases hxs : xs.isEmpty with
        | true => simp [resolveFilters.resolveFiltersFromLabels, hxs]
        | false =>
          have hls : (xs.filterMap validLabel).isEmpty := by
            rw [List.isEmpty_iff]
            exact h2
          simp [resolveFilters.resolveFiltersFromLabels, hxs, hls]
      | jstr s => rfl
      | jnull => rfl
      | jother => rfl
    cases lV with
    | jstr s =>
      have hs : pyStrip s = "" := by simpa [singleLabelValid] using h1
      simp [resolveFilters, hs, hfrom]
    | jnull => simpa [resolveFilters] using hfrom
    | jlist xs => simpa [resolveFilters] using hfrom
    | jother => simpa [resolveFilters] using hfrom
  · rfl
  · have hpick : knnPick [1]
        ("idA", { label := "labelA", phrase := "a", phrase_normalized := "a",
                  created_at := "T", embedding := [1] })
        ("idB", { label := "labelB", phrase := "b", phrase_normalized := "b",
                  created_at := "T", embedding := [3] }) =
        ("idB", { label := "labelB", phrase := "b", phrase_normalized := "b",
                  created_at := "T", embedding := [3] }) := by
      rw [knnPick, if_pos (by norm_num [esCosScore, dotQ])]
    rw [knnSearchTop1]
    simp only [c8ScenarioStore, List.filter_cons, List.filter_nil, matchesFilter,
      if_true, List.foldl_cons, List.foldl_nil, hpick]
  · norm_num [esCosScore, dotQ]

/-- C8 witness: the restriction theorem applied to the concrete filtered
Scenario C query. -/
theorem c8_witness :
    ∃ l, ({ label := some "labelA", score := some (esCosScore [1] [1]) } : Hit).label =
        some l ∧ matchesFilter (some (.terms ["labelA"])) l = true :=
  c8_filter_resolution_and_restriction.1 c8ScenarioStore [1]
    (some (.terms ["labelA"]))
    { label := some "labelA", score := some (esCosScore [1] [1]) } rfl
